import Mathlib

/-!
# Verification of the Pintos user-process virtual-memory core

A shallow embedding, in Lean 4, of the page-fault handler
(`src/userprog/exception.c`) and the frame table (`src/vm/frame.c`,
`src/vm/frame.h`) of this repository, together with proofs checking the
repository's specification against the embedded code.

Machine pointers and 32-bit integers are modelled as `Nat`, with explicit
`% 2^32` where the C code can wrap.  Mutation is modelled by explicit state
passing; C functions that can assert, panic or block are embedded as
`Except Err`-valued functions.  Code the claims depend on that lives in files
not among the provided sources (`vm/page.c`, `vm/swap.c`,
`userprog/pagedir.c`) is modelled from the specification; each such
definition carries a doc comment starting `Modelled from the spec:`.
-/

namespace PintosVM

/-! ## Constants from the sources -/

/-- `PHYS_BASE` (threads/vaddr.h): top of the user virtual address space. -/
def PHYS_BASE : Nat := 0xC0000000

/-- `STACK_MAX_SIZE` (userprog/exception.c): absolute limit on stack growth, 8 MiB. -/
def STACK_MAX_SIZE : Nat := 8 * 1024 * 1024

/-- `PGSIZE` (threads/vaddr.h): bytes in a page. -/
def PGSIZE : Nat := 4096

/-- `SYS_BAD_ADDR` sentinel, 0xFFFFFFFF (userprog/syscall.h per spec §6). -/
def SYS_BAD_ADDR : Nat := 0xFFFFFFFF

/-- Page-fault error-code bit: 0 = not present, 1 = rights violation. -/
def PF_P : Nat := 1

/-- Page-fault error-code bit: write access. -/
def PF_W : Nat := 2

/-- Page-fault error-code bit: access while in user mode. -/
def PF_U : Nat := 4

/-- User code segment selector (userprog/gdt.h). -/
def SEL_UCSEG : Nat := 0x1B

/-- Kernel code segment selector (userprog/gdt.h). -/
def SEL_KCSEG : Nat := 0x08

/-- Modulus of 32-bit pointer arithmetic. -/
def U32 : Nat := 2 ^ 32

/-- `pg_round_down` (threads/vaddr.h): round a virtual address down to its
page boundary. -/
def pg_round_down (va : Nat) : Nat := va / PGSIZE * PGSIZE

/-! ## Association lists

Per-process and global tables are embedded as association lists; `alookup`
and `aupdate` both act on the first entry with the given key, so duplicate
keys behave consistently. -/

def alookup {α β : Type} [DecidableEq α] : List (α × β) → α → Option β
  | [], _ => none
  | (k, v) :: rest, a => if k = a then some v else alookup rest a

def aupdate {α β : Type} [DecidableEq α] (l : List (α × β)) (a : α) (f : β → β) :
    List (α × β) :=
  match l with
  | [] => []
  | (k, v) :: rest => if k = a then (k, f v) :: rest else (k, v) :: aupdate rest a f

/-! ## Page-fault handler (userprog/exception.c) -/

/-- How a not-yet-resident page is to be materialized (`enum` in vm/page.h). -/
inductive PgType
  | zero
  | file
  | swap
deriving DecidableEq, Repr

/-- The part of an SPT entry the fault handler reads and writes
(`p->type`, `p->writable` in vm/page.h). -/
structure SPTE where
  ptype : PgType
  writable : Bool
deriving DecidableEq, Repr

/-- A per-process supplemental page table, keyed by `upage`. -/
abbrev SPT := List (Nat × SPTE)

/-- `stack_access` (userprog/exception.c, lines 245-251): the stack-growth
test.  Pointer comparisons are unsigned 32-bit; `esp - 32` is 32-bit pointer
arithmetic and may wrap. -/
def stack_access (vaddr esp : Nat) : Bool :=
  decide (PHYS_BASE - STACK_MAX_SIZE < vaddr) &&
  decide (vaddr ≤ PHYS_BASE - 1) &&
  decide ((esp + (U32 - 32)) % U32 ≤ vaddr)

/-- Modelled from the spec: `page_make_entry` lives in vm/page.c, which is not
among the provided sources.  Per spec §4.2 it inserts a blank entry for
`upage` and fails (returns a null pointer) if an entry for `upage` already
exists.  The blank entry's fields are overwritten by the caller. -/
def page_make_entry (spt : SPT) (upage : Nat) : Option SPT :=
  match alookup spt upage with
  | some _ => none
  | none => some ((upage, ⟨PgType.zero, false⟩) :: spt)

/-- Modelled from the spec: `page_load` lives in vm/page.c, which is not among
the provided sources.  Per spec §4.2 it fails when the SPT has no entry for
`upage`; the frame-allocation, install and IO steps of a successful lookup
are not needed by the claims settled through this definition and are modelled
as succeeding. -/
def page_load (spt : SPT) (upage : Nat) : Bool :=
  (alookup spt upage).isSome

/-- The members of `struct intr_frame` the page-fault handler touches. -/
structure IFrame where
  esp : Nat
  eip : Nat
  eax : Nat
  error_code : Nat
  cs : Nat
deriving DecidableEq, Repr

/-- Outcome of the page-fault handler: resume execution with a (possibly
rewritten) trap frame, terminate the process via `sys_exit`, or panic the
kernel. -/
inductive PFOut
  | contin : IFrame → PFOut
  | exited : Int → PFOut
  | panicked : PFOut
deriving DecidableEq, Repr

/-- `kill` (userprog/exception.c, lines 75-113): dispatch on the code segment
selector of the trap frame. -/
def kill (f : IFrame) : PFOut :=
  if f.cs = SEL_UCSEG then PFOut.exited (-1)
  else if f.cs = SEL_KCSEG then PFOut.panicked
  else PFOut.exited (-1)

/-- The user stack pointer seen by the fault handler: the trap frame's `esp`
for a user-mode fault, the per-thread `saved_esp` for a kernel-mode fault
(userprog/exception.c, line 172). -/
def fault_esp (f : IFrame) (saved_esp : Nat) : Nat :=
  if f.error_code &&& PF_U ≠ 0 then f.esp else saved_esp

/-- `page_fault` (userprog/exception.c, lines 126-231), as compiled with VM
defined: stack-growth entry creation, lazy load for not-present faults, the
kernel-mode sentinel trampoline, and the kill path.  The counter increment
and diagnostics are elided; everything that decides control flow or writes
program-visible state is kept. -/
def page_fault (f : IFrame) (fault_addr saved_esp : Nat) (spt : SPT) :
    PFOut × SPT :=
  let fault_page := pg_round_down fault_addr
  let not_present := f.error_code &&& PF_P = 0
  let user := f.error_code &&& PF_U ≠ 0
  let esp := fault_esp f saved_esp
  let spt1 :=
    if stack_access fault_addr esp then
      match page_make_entry spt fault_page with
      | some spt' =>
        aupdate spt' fault_page (fun e => { e with ptype := PgType.zero, writable := true })
      | none => spt
    else spt
  if not_present then
    if page_load spt1 fault_page then (PFOut.contin f, spt1)
    else (PFOut.exited (-1), spt1)
  else if !user then
    (PFOut.contin { f with eip := f.eax, eax := SYS_BAD_ADDR }, spt1)
  else
    (kill f, spt1)

/-! ## Frame table (vm/frame.c, vm/frame.h) -/

/-- Thread identifiers (`struct thread *` back-references). -/
abbrev Tid := Nat

/-- An SPT entry as seen by the frame table (`struct page` in vm/page.h):
`upage`, `owner`, materialization type, `writable`, the sticky `dirty` bit,
the swap `slot`, and the back-reference `frame`. -/
structure PageEnt where
  upage : Nat
  owner : Tid
  ptype : PgType
  writable : Bool
  dirty : Bool
  slot : Nat
  frame : Option Nat
deriving DecidableEq, Repr

/-- `struct frame` (vm/frame.h): `kpage`, `__owner`, the back-reference
`page`, the per-frame lock (modelled as its holder), and `pinned`.  List
membership is carried by `VMState.frameList`. -/
structure FrameEnt where
  kpage : Nat
  owner : Tid
  page : Option Nat
  lockHolder : Option Tid
  pinned : Bool
deriving DecidableEq, Repr

/-- A hardware page-table entry: present, accessed and dirty bits plus the
mapped physical frame. -/
structure PTE where
  present : Bool
  accessed : Bool
  dirty : Bool
  kpage : Nat
deriving DecidableEq, Repr

/-- The global state the frame table acts on: the running thread, the SPT
entries and frame descriptors (by identifier), the frame list and clock hand,
the two module locks of vm/frame.c, the hardware page directories (keyed by
owner and `upage`), the user-pool free pages, the swap store, frame memory
contents, and a fresh-identifier source standing in for `malloc`. -/
structure VMState where
  cur : Tid
  pages : List (Nat × PageEnt)
  frames : List (Nat × FrameEnt)
  frameList : List Nat
  hand : Option Nat
  tableLock : Option Tid
  mutexLock : Option Tid
  pagedir : List ((Tid × Nat) × PTE)
  freePages : List Nat
  freeSlots : List Nat
  swapData : List (Nat × Nat)
  mem : List (Nat × Nat)
  nextFid : Nat
deriving DecidableEq, Repr

/-- Failure modes of the embedded C: a failed `ASSERT`, a `PANIC` (including
dereferencing a null pointer), blocking forever on a lock, or an access the
embedding cannot resolve (a dangling identifier; never reached from well
formed states). -/
inductive Err
  | assertFail
  | panicked
  | blocked
  | oob
deriving DecidableEq, Repr

/-- `lock_acquire` (threads/synch.c) in a single-executing-thread model:
asserts the lock is not already held by the current thread; blocks forever
when another thread holds it. -/
def lock_acquire (holder : Option Tid) (cur : Tid) : Except Err (Option Tid) :=
  match holder with
  | none => Except.ok (some cur)
  | some t => if t = cur then Except.error Err.assertFail else Except.error Err.blocked

/-- `lock_release` (threads/synch.c): asserts the current thread holds the
lock. -/
def lock_release (holder : Option Tid) (cur : Tid) : Except Err (Option Tid) :=
  if holder = some cur then Except.ok none else Except.error Err.assertFail

/-- Modelled from the spec: `pagedir_clear_page` lives in userprog/pagedir.c,
which is not among the provided sources.  Per spec §4.3 step 2 it invalidates
the owner's hardware mapping of `upage`; per spec §9 the accessed and dirty
bits of the entry remain readable until the page is remapped, so only the
present bit is cleared. -/
def pagedir_clear_page (pd : List ((Tid × Nat) × PTE)) (t : Tid) (upage : Nat) :
    List ((Tid × Nat) × PTE) :=
  aupdate pd (t, upage) (fun pte => { pte with present := false })

/-- Modelled from the spec: `pagedir_is_dirty` lives in userprog/pagedir.c,
which is not among the provided sources.  It reads the hardware dirty bit of
the owner's entry for `upage` (false when there is no entry). -/
def pagedir_is_dirty (pd : List ((Tid × Nat) × PTE)) (t : Tid) (upage : Nat) : Bool :=
  match alookup pd (t, upage) with
  | some pte => pte.dirty
  | none => false

/-- The hardware accessed bit of the owner's entry for `upage` (false when
there is no entry). -/
def pagedir_accessed (pd : List ((Tid × Nat) × PTE)) (t : Tid) (upage : Nat) : Bool :=
  match alookup pd (t, upage) with
  | some pte => pte.accessed
  | none => false

/-- Whether the owner's hardware page table currently maps `upage`. -/
def pagedir_present (pd : List ((Tid × Nat) × PTE)) (t : Tid) (upage : Nat) : Bool :=
  match alookup pd (t, upage) with
  | some pte => pte.present
  | none => false

/-- Modelled from the spec: `page_was_accessed` lives in vm/page.c, which is
not among the provided sources.  Per spec §4.2 it reads and then clears the
hardware accessed bit of the owner's mapping of the entry's `upage`. -/
def page_was_accessed (s : VMState) (pid : Nat) : Except Err (Bool × VMState) :=
  match alookup s.pages pid with
  | none => Except.error Err.oob
  | some pe =>
    let pd := aupdate s.pagedir (pe.owner, pe.upage)
      (fun pte => { pte with accessed := false })
    Except.ok (pagedir_accessed s.pagedir pe.owner pe.upage, { s with pagedir := pd })

/-- Modelled from the spec: `swap_out` lives in vm/swap.c, which is not among
the provided sources.  Per spec §4.4 it allocates a free slot, writes the
page's contents into it and returns the slot index; running out of slots is
fatal. -/
def swap_out (s : VMState) (kpage : Nat) : Except Err (Nat × VMState) :=
  match s.freeSlots with
  | [] => Except.error Err.panicked
  | slot :: rest =>
    let ns := { s with freeSlots := rest,
                       swapData := (slot, (alookup s.mem kpage).getD 0) :: s.swapData }
    Except.ok (slot, ns)

/-- `frame_try_pin` (vm/frame.c, lines 250-265).  In the source the statement
after `else` is `lock_release (&mutex_lock);` — the diagnostic that was meant
to stand there is commented out — so on the success path the function returns
with `mutex_lock` still held. -/
def frame_try_pin (s : VMState) (f : Option Nat) : Except Err (Bool × VMState) :=
  match lock_acquire s.mutexLock s.cur with
  | Except.error e => Except.error e
  | Except.ok m =>
    let s1 := { s with mutexLock := m }
    match f with
    | none =>
      -- success is false without dereferencing f; the else arm releases the mutex
      match lock_release s1.mutexLock s1.cur with
      | Except.error e => Except.error e
      | Except.ok m' => Except.ok (false, { s1 with mutexLock := m' })
    | some fid =>
      match alookup s1.frames fid with
      | none => Except.error Err.oob
      | some fe =>
        if fe.pinned then
          match lock_release s1.mutexLock s1.cur with
          | Except.error e => Except.error e
          | Except.ok m' => Except.ok (false, { s1 with mutexLock := m' })
        else
          -- success path: set pinned and return; mutex_lock is not released
          let fr := aupdate s1.frames fid (fun g => { g with pinned := true })
          Except.ok (true, { s1 with frames := fr })

/-- `frame_unpin` (vm/frame.c, lines 267-275): asserts a non-null argument,
then clears `pinned` under `mutex_lock`. -/
def frame_unpin (s : VMState) (f : Option Nat) : Except Err VMState :=
  match f with
  | none => Except.error Err.assertFail
  | some fid =>
    match lock_acquire s.mutexLock s.cur with
    | Except.error e => Except.error e
    | Except.ok m =>
      let fr := aupdate s.frames fid (fun g => { g with pinned := false })
      let s1 := { s with mutexLock := m, frames := fr }
      match lock_release s1.mutexLock s1.cur with
      | Except.error e => Except.error e
      | Except.ok m' => Except.ok { s1 with mutexLock := m' }

/-- `frame_lock_try_acquire` (vm/frame.c, lines 291-301): returns false when
the current thread already holds the lock of a frame whose page it owns;
otherwise `lock_try_acquire` (threads/synch.c, inlined here) on the
per-frame lock: it asserts the lock is not already held by the current
thread, acquires it when free, and fails without writing when another
thread holds it.  Dereferences `f->page` without a null check. -/
def frame_lock_try_acquire (s : VMState) (fid : Nat) : Except Err (Bool × VMState) :=
  match alookup s.frames fid with
  | none => Except.error Err.oob
  | some fe =>
    match fe.page with
    | none => Except.error Err.panicked
    | some pid =>
      match alookup s.pages pid with
      | none => Except.error Err.oob
      | some pe =>
        if pe.owner = s.cur ∧ fe.lockHolder = some s.cur then Except.ok (false, s)
        else
          match fe.lockHolder with
          | none =>
            let fr := aupdate s.frames fid (fun g => { g with lockHolder := some s.cur })
            Except.ok (true, { s with frames := fr })
          | some t =>
            if t = s.cur then Except.error Err.assertFail
            else Except.ok (false, s)

/-- `frame_lock_release` (vm/frame.c, lines 284-289): asserts a non-null
argument and releases the per-frame lock (which asserts the current thread
holds it). -/
def frame_lock_release (s : VMState) (fid : Nat) : Except Err VMState :=
  match alookup s.frames fid with
  | none => Except.error Err.oob
  | some fe =>
    match lock_release fe.lockHolder s.cur with
    | Except.error e => Except.error e
    | Except.ok h =>
      Except.ok { s with
        frames := aupdate s.frames fid (fun g => { g with lockHolder := h }) }

/-- Position of the first occurrence of `fid` in the list (the list element
the hand pointer designates). -/
def idx_of (l : List Nat) (fid : Nat) : Option Nat :=
  match l with
  | [] => none
  | x :: xs => if x = fid then some 0 else (idx_of xs fid).map (· + 1)

/-- The list step of `frame_advance_hand` (vm/frame.c, lines 107-119): a null
hand starts at `list_begin`; otherwise the hand moves to the next element,
wrapping from `list_end` back to `list_begin`.  The hand is modelled by the
identity of the frame it points at; a hand pointing at a frame no longer in
the list (dangling in the source) restarts at the beginning. -/
def list_next_wrap (l : List Nat) (hand : Option Nat) : Option Nat :=
  match hand with
  | none => l.head?
  | some fid =>
    match idx_of l fid with
    | some i =>
      match l.get? (i + 1) with
      | some nxt => some nxt
      | none => l.head?
    | none => l.head?

/-- `frame_advance_hand` (vm/frame.c, lines 107-119). -/
def frame_advance_hand (s : VMState) : Except Err (Nat × VMState) :=
  match list_next_wrap s.frameList s.hand with
  | none => Except.error Err.oob
  | some fid => Except.ok (fid, { s with hand := some fid })

/-- The scan loop of `frame_get_victim` (vm/frame.c, lines 127-144), with
explicit fuel standing for the unbounded `while`: advance the hand; panic on
a frame without a page; skip a frame whose lock cannot be taken; give a
second chance (clear the accessed bit, drop the lock) to a frame whose page
was accessed; otherwise remove the frame from the list and return it locked.
Exhausted fuel stands for a scan that never returns. -/
def frame_get_victim_loop : Nat → VMState → Except Err (Nat × VMState)
  | 0, _ => Except.error Err.blocked
  | fuel + 1, s =>
    match frame_advance_hand s with
    | Except.error e => Except.error e
    | Except.ok (fid, s1) =>
      match alookup s1.frames fid with
      | none => Except.error Err.oob
      | some fe =>
        match fe.page with
        | none => Except.error Err.panicked
        | some pid =>
          match frame_lock_try_acquire s1 fid with
          | Except.error e => Except.error e
          | Except.ok (false, s2) => frame_get_victim_loop fuel s2
          | Except.ok (true, s2) =>
            match page_was_accessed s2 pid with
            | Except.error e => Except.error e
            | Except.ok (true, s3) =>
              match frame_lock_release s3 fid with
              | Except.error e => Except.error e
              | Except.ok s4 => frame_get_victim_loop fuel s4
            | Except.ok (false, s3) =>
              Except.ok (fid, { s3 with frameList := s3.frameList.erase fid })

/-- `frame_get_victim` (vm/frame.c, lines 121-145): asserts the table lock is
held and the frame list non-empty, then runs the clock scan. -/
def frame_get_victim (fuel : Nat) (s : VMState) : Except Err (Nat × VMState) :=
  if s.tableLock = some s.cur then
    if s.frameList = [] then Except.error Err.assertFail
    else frame_get_victim_loop fuel s
  else Except.error Err.assertFail

/-- The tail of `frame_do_eviction` after the optional swap-out (vm/frame.c,
lines 185-192): rebind the frame to `dst`, clear `src`'s frame reference, set
the frame's `__owner` to `dst`'s owner, and re-append the frame at the tail
of the frame list. -/
def evict_finish (s : VMState) (srcPid dstPid f : Nat) (dstOwner : Tid) : VMState :=
  let s1 := { s with frames := aupdate s.frames f (fun g => { g with page := some dstPid }) }
  let s2 := { s1 with pages := aupdate s1.pages srcPid (fun p => { p with frame := none }) }
  let s3 := { s2 with frames := aupdate s2.frames f (fun g => { g with owner := dstOwner }) }
  { s3 with frameList := s3.frameList ++ [f] }

/-- `frame_do_eviction` (vm/frame.c, lines 147-193): after its entry
assertions, remove the victim frame from the list (on the allocation path it
was already removed by `frame_get_victim`; re-removing an element whose
neighbours already bypass it is a no-op in the source's list implementation,
matched here by `List.erase` of an absent element), invalidate the victim's
hardware mapping, fold the hardware dirty bit into the sticky `src.dirty`,
swap the contents out when dirty, and hand the frame over to `dst`. -/
def frame_do_eviction (s : VMState) (srcPid dstPid : Nat) : Except Err VMState :=
  match alookup s.pages srcPid with
  | none => Except.error Err.assertFail
  | some src =>
    match src.frame with
    | none => Except.error Err.assertFail
    | some f =>
      match alookup s.frames f with
      | none => Except.error Err.oob
      | some fe =>
        if fe.page = some srcPid then
          match alookup s.pages dstPid with
          | none => Except.error Err.assertFail
          | some dst =>
            if dst.frame = none ∧ dst.owner = s.cur ∧ s.tableLock = some s.cur then
              let sA := { s with frameList := s.frameList.erase f,
                                 pagedir := pagedir_clear_page s.pagedir src.owner src.upage }
              let d := src.dirty || pagedir_is_dirty sA.pagedir src.owner src.upage
              let sB := { sA with pages := aupdate sA.pages srcPid (fun p => { p with dirty := d }) }
              if d then
                match swap_out sB fe.kpage with
                | Except.error e => Except.error e
                | Except.ok (slot, sC) =>
                  let pg := aupdate sC.pages srcPid
                    (fun p => { p with slot := slot, ptype := PgType.swap })
                  let sD := { sC with pages := pg }
                  Except.ok (evict_finish sD srcPid dstPid f dst.owner)
              else
                Except.ok (evict_finish sB srcPid dstPid f dst.owner)
            else Except.error Err.assertFail
        else Except.error Err.assertFail

/-- `frame_alloc` (vm/frame.c, lines 33-77): after its entry assertions and
taking the table lock, try the user pool; on success build a locked
descriptor for the fresh page, link it at the tail of the frame list and
return it; when the pool is exhausted, select a victim with the clock scan
and evict it in favour of `p`, returning the victim frame still locked.  The
source leaves `pinned` uninitialized after `malloc`; it is modelled as
`false`. -/
def frame_alloc (fuel : Nat) (s : VMState) (pid : Nat) : Except Err (Nat × VMState) :=
  match alookup s.pages pid with
  | none => Except.error Err.assertFail
  | some p =>
    if p.owner = s.cur then
      match lock_acquire s.tableLock s.cur with
      | Except.error e => Except.error e
      | Except.ok tl =>
        let s0 := { s with tableLock := tl }
        let fid := s0.nextFid
        match s0.freePages with
        | kpage :: rest =>
          let fe : FrameEnt :=
            { kpage := kpage, owner := p.owner, page := some pid,
              lockHolder := some s0.cur, pinned := false }
          let s1 := { s0 with nextFid := fid + 1, freePages := rest,
                              frames := (fid, fe) :: s0.frames,
                              frameList := s0.frameList ++ [fid],
                              tableLock := none }
          Except.ok (fid, s1)
        | [] =>
          match frame_get_victim fuel s0 with
          | Except.error e => Except.error e
          | Except.ok (v, sV) =>
            match alookup sV.frames v with
            | none => Except.error Err.oob
            | some vfe =>
              match vfe.page with
              | none => Except.error Err.assertFail
              | some vpid =>
                match alookup sV.pages vpid with
                | none => Except.error Err.oob
                | some vp =>
                  if vfe.owner = vp.owner then
                    match frame_do_eviction sV vpid pid with
                    | Except.error e => Except.error e
                    | Except.ok sE =>
                      match lock_release sE.tableLock sE.cur with
                      | Except.error e => Except.error e
                      | Except.ok tl' => Except.ok (v, { sE with tableLock := tl' })
                  else Except.error Err.assertFail
    else Except.error Err.assertFail

/-! ## Predicates used to state the claims -/

/-- The stack-growth window exactly as the specification words it (C2): the
faulting page lies within `[PHYS_BASE - 8 MiB, PHYS_BASE)` and the faulting
address is within 32 bytes below `esp`.  To be compared with the source's
`stack_access`. -/
def stack_growth_claim_window (vaddr esp : Nat) : Bool :=
  decide (PHYS_BASE - STACK_MAX_SIZE ≤ pg_round_down vaddr) &&
  decide (pg_round_down vaddr < PHYS_BASE) &&
  decide (esp - 32 ≤ vaddr)

/-- The resident-page half of the SPT/frame bijection of spec §3.2: every
frame whose `page` field names an SPT entry is named back by that entry's
`frame` field. -/
def frames_pages_consistent (s : VMState) : Bool :=
  s.frames.all (fun gq =>
    match gq.2.page with
    | some q => decide ((alookup s.pages q).map PageEnt.frame = some (some gq.1))
    | none => true)

/-- Extract the value of a successful computation (default otherwise). -/
def exOk {α : Type} (dflt : α) : Except Err α → α
  | Except.ok a => a
  | Except.error _ => dflt

/-! ## Concrete states used by counterexamples and witnesses -/

/-- A state whose single frame is pinned, lock-free, with a resident page
whose accessed bit is clear; the table lock is held by the current thread as
`frame_get_victim` requires. -/
def stateC3 : VMState :=
  { cur := 1
    pages := [(0, { upage := 0x08048000, owner := 2, ptype := PgType.file,
                    writable := true, dirty := false, slot := 0, frame := some 0 })]
    frames := [(0, { kpage := 100, owner := 2, page := some 0,
                     lockHolder := none, pinned := true })]
    frameList := [0]
    hand := none
    tableLock := some 1
    mutexLock := none
    pagedir := [((2, 0x08048000),
                 { present := true, accessed := false, dirty := false, kpage := 100 })]
    freePages := []
    freeSlots := [7]
    swapData := []
    mem := [(100, 42)]
    nextFid := 5 }

/-- A state ready for `frame_do_eviction 0 1`: page 0 (owned by thread 2) is
resident in frame 0 — already taken off the frame list and locked by the
current thread, as on the allocation path — its hardware mapping is present
and dirty; page 1 (owned by the current thread 1) is the beneficiary. -/
def stateEvict : VMState :=
  { cur := 1
    pages := [(0, { upage := 0x08048000, owner := 2, ptype := PgType.file,
                    writable := true, dirty := false, slot := 0, frame := some 0 }),
              (1, { upage := 0x0900000, owner := 1, ptype := PgType.zero,
                    writable := true, dirty := false, slot := 0, frame := none })]
    frames := [(0, { kpage := 100, owner := 2, page := some 0,
                     lockHolder := some 1, pinned := false })]
    frameList := []
    hand := none
    tableLock := some 1
    mutexLock := none
    pagedir := [((2, 0x08048000),
                 { present := true, accessed := false, dirty := true, kpage := 100 })]
    freePages := []
    freeSlots := [7]
    swapData := []
    mem := [(100, 42)]
    nextFid := 5 }

/-- A state for `frame_alloc` with the user pool exhausted: the single frame
0 holds page 0 (owned by thread 2, clean, accessed bit clear) and must be
evicted in favour of page 1, owned by the current thread 1. -/
def stateAlloc : VMState :=
  { cur := 1
    pages := [(0, { upage := 0x08048000, owner := 2, ptype := PgType.file,
                    writable := true, dirty := false, slot := 0, frame := some 0 }),
              (1, { upage := 0x0900000, owner := 1, ptype := PgType.zero,
                    writable := true, dirty := false, slot := 0, frame := none })]
    frames := [(0, { kpage := 100, owner := 2, page := some 0,
                     lockHolder := none, pinned := false })]
    frameList := [0]
    hand := none
    tableLock := none
    mutexLock := none
    pagedir := [((2, 0x08048000),
                 { present := true, accessed := false, dirty := false, kpage := 100 })]
    freePages := []
    freeSlots := [7]
    swapData := []
    mem := [(100, 42)]
    nextFid := 5 }

/-- Like `stateAlloc` but with one free page in the user pool, so
`frame_alloc` takes the fresh-frame path. -/
def stateFresh : VMState := { stateAlloc with freePages := [200] }

/-- State after a successful eviction from `stateEvict`. -/
def stateEvictPost : VMState := exOk stateEvict (frame_do_eviction stateEvict 0 1)

/-- State after `frame_alloc` runs the eviction path from `stateAlloc`. -/
def stateAllocPost : VMState :=
  exOk (0, stateAlloc) (frame_alloc 4 stateAlloc 1) |>.2

/-- State after `frame_alloc` takes the fresh-frame path from `stateFresh`. -/
def stateFreshPost : VMState :=
  exOk (0, stateFresh) (frame_alloc 4 stateFresh 1) |>.2

/-- State after a first, successful `frame_try_pin` on frame 0 of
`stateAlloc`. -/
def statePinned : VMState :=
  exOk (false, stateAlloc) (frame_try_pin stateAlloc (some 0)) |>.2

/-- State after `frame_get_victim` selects the (pinned) frame of
`stateC3`. -/
def stateC3Post : VMState :=
  exOk (0, stateC3) (frame_get_victim 4 stateC3) |>.2

/-! ## Association-list lemmas -/

theorem alookup_aupdate_eq {α β : Type} [DecidableEq α] (l : List (α × β)) (a : α)
    (f : β → β) : alookup (aupdate l a f) a = (alookup l a).map f := by
  induction l with
  | nil => rfl
  | cons kv rest ih =>
    obtain ⟨k, v⟩ := kv
    by_cases h : k = a <;> simp [alookup, aupdate, h, ih]

theorem alookup_aupdate_ne {α β : Type} [DecidableEq α] (l : List (α × β)) (a b : α)
    (f : β → β) (hab : a ≠ b) : alookup (aupdate l a f) b = alookup l b := by
  induction l with
  | nil => rfl
  | cons kv rest ih =>
    obtain ⟨k, v⟩ := kv
    by_cases h : k = a
    · subst h; simp [alookup, aupdate, hab]
    · simp [alookup, aupdate, h, ih]

theorem alookup_mem {α β : Type} [DecidableEq α] {l : List (α × β)} {a : α} {b : β}
    (h : alookup l a = some b) : (a, b) ∈ l := by
  induction l with
  | nil => simp [alookup] at h
  | cons kv rest ih =>
    obtain ⟨k, v⟩ := kv
    by_cases hk : k = a
    · subst hk
      simp [alookup] at h
      simp [h]
    · simp [alookup, hk] at h
      exact List.mem_cons_of_mem _ (ih h)

/-! ## C1: the kernel-mode sentinel trampoline -/

/-- C1 counterexample: a kernel-mode, not-present fault at an address with no
SPT entry is not given the sentinel trampoline; `page_load` fails and the
handler terminates the process with exit status -1, contrary to the claim
that every kernel-mode fault not serviced by stack growth or a successful
page load rewrites the trap frame and continues. -/
theorem C1_counterexample :
    page_fault { esp := 0, eip := 77, eax := 1234, error_code := 0, cs := SEL_KCSEG }
      0x1000 0xBFFFFF00 [] =
    (PFOut.exited (-1), []) := by
  decide

/-- C1 (amended): for every page fault arriving from kernel mode that
reports a rights violation — the only kernel-mode faults that are not
routed through `page_load` — the handler rewrites the trap frame, setting
`eip` to the value saved in `eax` and `eax` to `SYS_BAD_ADDR`, and execution
continues without killing any process.  (Kernel-mode not-present faults that
`page_load` cannot service instead terminate the process, as
`C1_counterexample` shows.) -/
theorem C1_kernel_rights_violation_trampoline (f : IFrame)
    (fault_addr saved_esp : Nat) (spt : SPT)
    (hP : f.error_code &&& PF_P ≠ 0) (hU : f.error_code &&& PF_U = 0) :
    (page_fault f fault_addr saved_esp spt).1 =
      PFOut.contin { f with eip := f.eax, eax := SYS_BAD_ADDR } := by
  simp only [page_fault, fault_esp, hP, hU]
  simp

/-- C1 witness: the amended theorem applied to a concrete kernel-mode
rights-violation fault. -/
theorem C1_witness :
    (page_fault { esp := 0, eip := 77, eax := 1234, error_code := 1, cs := SEL_KCSEG }
      0x1000 0xBFFFFF00 []).1 =
    PFOut.contin { esp := 0, eip := 1234, eax := SYS_BAD_ADDR, error_code := 1,
                   cs := SEL_KCSEG } :=
  C1_kernel_rights_violation_trampoline _ 0x1000 0xBFFFFF00 []
    (by decide) (by decide)

/-! ## C2: the stack-growth window -/

/-- The second component of `page_fault` (the SPT) only changes through the
stack-growth step; the materialize/trampoline/kill dispatch leaves it
alone. -/
theorem page_fault_snd (f : IFrame) (fault_addr saved_esp : Nat) (spt : SPT) :
    (page_fault f fault_addr saved_esp spt).2 =
      (if stack_access fault_addr (fault_esp f saved_esp) then
        match page_make_entry spt (pg_round_down fault_addr) with
        | some spt' => aupdate spt' (pg_round_down fault_addr)
            (fun e => { e with ptype := PgType.zero, writable := true })
        | none => spt
      else spt) := by
  simp only [page_fault]
  repeat' split
  all_goals rfl

/-- C2 counterexample: at the faulting address `PHYS_BASE - 8 MiB` (with
`esp` eight bytes above it), the claim's window — faulting page within
`[PHYS_BASE - 8 MiB, PHYS_BASE)` and address within 32 bytes below `esp` —
holds, but the source's `stack_access` is false (`vaddr` must be strictly
greater than `PHYS_BASE - STACK_MAX_SIZE`), and the handler creates no SPT
entry. -/
theorem C2_counterexample :
    stack_growth_claim_window (PHYS_BASE - STACK_MAX_SIZE)
      (PHYS_BASE - STACK_MAX_SIZE + 8) = true ∧
    stack_access (PHYS_BASE - STACK_MAX_SIZE)
      (PHYS_BASE - STACK_MAX_SIZE + 8) = false ∧
    (page_fault { esp := PHYS_BASE - STACK_MAX_SIZE + 8, eip := 77, eax := 9,
                  error_code := PF_P + PF_U, cs := SEL_UCSEG }
       (PHYS_BASE - STACK_MAX_SIZE) 0 []).2 = [] := by
  refine ⟨by decide, by decide, by decide⟩

/-- C2 (amended): for every page fault whose faulting page has no SPT entry
yet, the handler creates an SPT entry of type `ZERO` with `writable = true`
for the page containing the faulting address exactly when the faulting
address lies strictly within `(PHYS_BASE - 8 MiB, PHYS_BASE)` — the address,
not its page, is compared, so the first byte of the 8 MiB window is excluded
— and the address is no more than 32 bytes below `esp`. -/
theorem C2_stack_growth_iff (f : IFrame) (fault_addr saved_esp : Nat) (spt : SPT)
    (hlook : alookup spt (pg_round_down fault_addr) = none)
    (h32 : 32 ≤ fault_esp f saved_esp) (hlt : fault_esp f saved_esp < U32) :
    (alookup (page_fault f fault_addr saved_esp spt).2 (pg_round_down fault_addr) =
        some ⟨PgType.zero, true⟩) ↔
      (PHYS_BASE - STACK_MAX_SIZE < fault_addr ∧ fault_addr < PHYS_BASE ∧
        fault_esp f saved_esp - 32 ≤ fault_addr) := by
  have hespmod : (fault_esp f saved_esp + (U32 - 32)) % U32 =
      fault_esp f saved_esp - 32 := by
    simp only [U32] at hlt ⊢
    omega
  have hsa : (stack_access fault_addr (fault_esp f saved_esp) = true) ↔
      (PHYS_BASE - STACK_MAX_SIZE < fault_addr ∧ fault_addr < PHYS_BASE ∧
        fault_esp f saved_esp - 32 ≤ fault_addr) := by
    simp only [stack_access, hespmod, Bool.and_eq_true, decide_eq_true_eq,
      PHYS_BASE, STACK_MAX_SIZE]
    omega
  rw [← hsa, page_fault_snd]
  by_cases hs : stack_access fault_addr (fault_esp f saved_esp) = true
  · simp only [hs, if_true, page_make_entry, hlook]
    simp [aupdate, alookup]
  · simp only [Bool.not_eq_true] at hs
    simp [hs, hlook]

/-- C2 witness: the amended theorem applied to the specification's own
PUSH scenario (`esp = 0xBFFFFFFC`, write four bytes below `esp`), where the
window test passes and the `ZERO`/writable entry is created. -/
theorem C2_witness :
    (alookup (page_fault { esp := 0xBFFFFFFC, eip := 0, eax := 0,
                           error_code := PF_U, cs := SEL_UCSEG }
        0xBFFFFFF8 0 []).2 (pg_round_down 0xBFFFFFF8) =
      some ⟨PgType.zero, true⟩) ↔
    (PHYS_BASE - STACK_MAX_SIZE < 0xBFFFFFF8 ∧ (0xBFFFFFF8 : Nat) < PHYS_BASE ∧
      fault_esp { esp := 0xBFFFFFFC, eip := 0, eax := 0,
                  error_code := PF_U, cs := SEL_UCSEG } 0 - 32 ≤ 0xBFFFFFF8) :=
  C2_stack_growth_iff _ 0xBFFFFFF8 0 [] rfl (by decide) (by decide)

/-! ## Page-directory lemmas -/

theorem pagedir_is_dirty_clear (pd : List ((Tid × Nat) × PTE)) (t : Tid) (u : Nat) :
    pagedir_is_dirty (pagedir_clear_page pd t u) t u = pagedir_is_dirty pd t u := by
  simp only [pagedir_is_dirty, pagedir_clear_page, alookup_aupdate_eq]
  cases alookup pd (t, u) <;> simp

theorem pagedir_present_clear (pd : List ((Tid × Nat) × PTE)) (t : Tid) (u : Nat) :
    pagedir_present (pagedir_clear_page pd t u) t u = false := by
  simp only [pagedir_present, pagedir_clear_page, alookup_aupdate_eq]
  cases alookup pd (t, u) <;> simp

theorem pagedir_accessed_clear (pd : List ((Tid × Nat) × PTE)) (t : Tid) (u : Nat) :
    pagedir_accessed
      (aupdate pd (t, u) (fun pte => { pte with accessed := false })) t u = false := by
  simp only [pagedir_accessed, alookup_aupdate_eq]
  cases alookup pd (t, u) <;> simp

/-! ## Characterization of frame_do_eviction -/

/-- Under the preconditions `frame_do_eviction` asserts (plus a non-empty
swap store), eviction succeeds and the resulting state is characterized
field by field. -/
theorem frame_do_eviction_ok_conj (s : VMState) (srcPid dstPid : Nat)
    (src : PageEnt) (f : Nat) (fe : FrameEnt) (dst : PageEnt)
    (hsrc : alookup s.pages srcPid = some src)
    (hsf : src.frame = some f)
    (hfe : alookup s.frames f = some fe)
    (hfp : fe.page = some srcPid)
    (hdst : alookup s.pages dstPid = some dst)
    (hdf : dst.frame = none)
    (hdo : dst.owner = s.cur)
    (htl : s.tableLock = some s.cur)
    (hslots : s.freeSlots ≠ []) :
    ∃ s', frame_do_eviction s srcPid dstPid = Except.ok s' ∧
      s'.cur = s.cur ∧
      s'.tableLock = s.tableLock ∧
      s'.frameList = s.frameList.erase f ++ [f] ∧
      s'.pagedir = pagedir_clear_page s.pagedir src.owner src.upage ∧
      alookup s'.frames f = some { fe with page := some dstPid, owner := dst.owner } ∧
      (∀ g, g ≠ f → alookup s'.frames g = alookup s.frames g) ∧
      alookup s'.pages dstPid = some dst ∧
      (∀ q, q ≠ srcPid → q ≠ dstPid → alookup s'.pages q = alookup s.pages q) ∧
      (alookup s'.pages srcPid).map PageEnt.frame = some none ∧
      (alookup s'.pages srcPid).map PageEnt.dirty =
        some (src.dirty || pagedir_is_dirty s.pagedir src.owner src.upage) ∧
      ((src.dirty || pagedir_is_dirty s.pagedir src.owner src.upage) = true →
        ∃ slot rest, s.freeSlots = slot :: rest ∧
          s'.freeSlots = rest ∧
          (alookup s'.pages srcPid).map PageEnt.ptype = some PgType.swap ∧
          (alookup s'.pages srcPid).map PageEnt.slot = some slot ∧
          alookup s'.swapData slot = some ((alookup s.mem fe.kpage).getD 0)) ∧
      ((src.dirty || pagedir_is_dirty s.pagedir src.owner src.upage) = false →
        s'.freeSlots = s.freeSlots ∧ s'.swapData = s.swapData ∧
        (alookup s'.pages srcPid).map PageEnt.ptype = some src.ptype) := by
  have hne : srcPid ≠ dstPid := by
    intro he
    subst he
    rw [hsrc] at hdst
    injection hdst with hsd
    rw [hsd, hdf] at hsf
    exact Option.noConfusion hsf
  simp only [frame_do_eviction, hsrc, hsf, hfe, hfp, hdst, hdf, hdo, htl,
    pagedir_is_dirty_clear, and_self, if_true, eq_self_iff_true, true_and, and_true,
    ite_true]
  cases hd : src.dirty || pagedir_is_dirty s.pagedir src.owner src.upage with
  | false =>
    simp only [Bool.false_eq_true, if_false, ite_false]
    refine ⟨_, rfl, ?_, ?_, ?_, ?_, ?_, ?_, ?_, ?_, ?_, ?_, ?_, ?_⟩
    · simp [evict_finish]
    · simp [evict_finish]
    · simp [evict_finish]
    · simp [evict_finish]
    · simp [evict_finish, alookup_aupdate_eq, hfe]
    · intro g hg
      simp only [evict_finish]
      simp [alookup_aupdate_ne _ _ _ _ (Ne.symm hg)]
    · simp [evict_finish, alookup_aupdate_ne _ _ _ _ hne, hdst]
    · intro q h1 h2
      simp only [evict_finish]
      simp [alookup_aupdate_ne _ _ _ _ (Ne.symm h1)]
    · simp [evict_finish, alookup_aupdate_eq, hsrc]
    · simp [evict_finish, alookup_aupdate_eq, hsrc]
    · intro h
      exact absurd h (by decide)
    · intro _
      refine ⟨?_, ?_, ?_⟩
      · simp [evict_finish]
      · simp [evict_finish]
      · simp [evict_finish, alookup_aupdate_eq, hsrc]
  | true =>
    cases hfs : s.freeSlots with
    | nil => exact absurd hfs hslots
    | cons slot rest =>
      simp only [if_true, ite_true, swap_out, hfs]
      refine ⟨_, rfl, ?_, ?_, ?_, ?_, ?_, ?_, ?_, ?_, ?_, ?_, ?_, ?_⟩
      · simp [evict_finish]
      · simp [evict_finish]
      · simp [evict_finish]
      · simp [evict_finish]
      · simp [evict_finish, alookup_aupdate_eq, hfe]
      · intro g hg
        simp only [evict_finish]
        simp [alookup_aupdate_ne _ _ _ _ (Ne.symm hg)]
      · simp [evict_finish, alookup_aupdate_ne _ _ _ _ hne, hdst]
      · intro q h1 h2
        simp only [evict_finish]
        simp [alookup_aupdate_ne _ _ _ _ (Ne.symm h1)]
      · simp [evict_finish, alookup_aupdate_eq, hsrc]
      · simp [evict_finish, alookup_aupdate_eq, hsrc]
      · intro _
        refine ⟨slot, rest, rfl, ?_, ?_, ?_, ?_⟩
        · simp [evict_finish]
        · simp [evict_finish, alookup_aupdate_eq, hsrc]
        · simp [evict_finish, alookup_aupdate_eq, hsrc]
        · simp [evict_finish, alookup]
      · intro h
        exact absurd h (by decide)


/-! ## C4: the rebind postconditions of eviction -/

/-- C4 counterexample: a successful `frame_do_eviction` of SPT entry 0 in
favour of SPT entry 1 leaves the beneficiary's `frame` reference absent —
`frame_do_eviction` never assigns `dst->frame` — contrary to the claim that
afterwards `dst`'s frame reference is the evicted frame. -/
theorem C4_counterexample :
    frame_do_eviction stateEvict 0 1 = Except.ok stateEvictPost ∧
    (alookup stateEvictPost.pages 1).map PageEnt.frame = some none := by
  refine ⟨rfl, rfl⟩

/-- C4 (amended): after eviction of victim SPT entry `src` in favour of
beneficiary SPT entry `dst`, the frame's page back-reference equals `dst`,
`src`'s frame reference is absent, the frame's owner is `dst`'s owner, and
the frame is re-appended at the tail of the frame list; `dst`'s own frame
reference, however, is left unset (`⊥`) by `frame_do_eviction` — writing it
is left to the caller. -/
theorem C4_eviction_rebind (s : VMState) (srcPid dstPid : Nat)
    (src : PageEnt) (f : Nat) (fe : FrameEnt) (dst : PageEnt)
    (hsrc : alookup s.pages srcPid = some src)
    (hsf : src.frame = some f)
    (hfe : alookup s.frames f = some fe)
    (hfp : fe.page = some srcPid)
    (hdst : alookup s.pages dstPid = some dst)
    (hdf : dst.frame = none)
    (hdo : dst.owner = s.cur)
    (htl : s.tableLock = some s.cur)
    (hslots : s.freeSlots ≠ []) :
    ∃ s', frame_do_eviction s srcPid dstPid = Except.ok s' ∧
      (alookup s'.frames f).map FrameEnt.page = some (some dstPid) ∧
      (alookup s'.pages srcPid).map PageEnt.frame = some none ∧
      (alookup s'.frames f).map FrameEnt.owner = some dst.owner ∧
      s'.frameList.getLast? = some f ∧
      alookup s'.pages dstPid = some dst := by
  obtain ⟨s', h1, hcur, htl2, hfl, hpd, hff, hfo, hdd, hqo, hfr, hdr, hdt, hdfa⟩ :=
    frame_do_eviction_ok_conj s srcPid dstPid src f fe dst
      hsrc hsf hfe hfp hdst hdf hdo htl hslots
  refine ⟨s', h1, ?_, hfr, ?_, ?_, hdd⟩
  · rw [hff]; rfl
  · rw [hff]; rfl
  · rw [hfl]
    exact List.getLast?_concat _

/-- C4 witness: the amended theorem applied to the concrete eviction
scenario `stateEvict`. -/
theorem C4_witness :
    ∃ s', frame_do_eviction stateEvict 0 1 = Except.ok s' ∧
      (alookup s'.frames 0).map FrameEnt.page = some (some 1) ∧
      (alookup s'.pages 0).map PageEnt.frame = some none ∧
      (alookup s'.frames 0).map FrameEnt.owner = some 1 ∧
      s'.frameList.getLast? = some 0 ∧
      alookup s'.pages 1 = some { upage := 0x0900000, owner := 1, ptype := PgType.zero,
                                  writable := true, dirty := false, slot := 0,
                                  frame := none } :=
  C4_eviction_rebind stateEvict 0 1
    { upage := 0x08048000, owner := 2, ptype := PgType.file,
      writable := true, dirty := false, slot := 0, frame := some 0 }
    0
    { kpage := 100, owner := 2, page := some 0, lockHolder := some 1, pinned := false }
    { upage := 0x0900000, owner := 1, ptype := PgType.zero,
      writable := true, dirty := false, slot := 0, frame := none }
    rfl rfl rfl rfl rfl rfl rfl rfl (by decide)

/-! ## C5: unmap, sticky dirty, and swap-out during eviction -/

/-- C5: during eviction of `src` the handler invalidates `src.owner`'s
hardware mapping of `src.upage` — afterwards the mapping is not present —
and ORs the hardware dirty bit into the sticky `src.dirty` (clearing the
mapping first does not lose the dirty bit, so the OR sees the pre-clear
value); when the result is set, the frame contents are written to a freshly
allocated swap slot, the slot is recorded in `src`, and `src.type` becomes
`SWAP`. -/
theorem C5_eviction_dirty_swap (s : VMState) (srcPid dstPid : Nat)
    (src : PageEnt) (f : Nat) (fe : FrameEnt) (dst : PageEnt)
    (hsrc : alookup s.pages srcPid = some src)
    (hsf : src.frame = some f)
    (hfe : alookup s.frames f = some fe)
    (hfp : fe.page = some srcPid)
    (hdst : alookup s.pages dstPid = some dst)
    (hdf : dst.frame = none)
    (hdo : dst.owner = s.cur)
    (htl : s.tableLock = some s.cur)
    (hslots : s.freeSlots ≠ []) :
    ∃ s', frame_do_eviction s srcPid dstPid = Except.ok s' ∧
      pagedir_present s'.pagedir src.owner src.upage = false ∧
      (alookup s'.pages srcPid).map PageEnt.dirty =
        some (src.dirty || pagedir_is_dirty s.pagedir src.owner src.upage) ∧
      ((src.dirty || pagedir_is_dirty s.pagedir src.owner src.upage) = true →
        ∃ slot rest, s.freeSlots = slot :: rest ∧ s'.freeSlots = rest ∧
          (alookup s'.pages srcPid).map PageEnt.ptype = some PgType.swap ∧
          (alookup s'.pages srcPid).map PageEnt.slot = some slot ∧
          alookup s'.swapData slot = some ((alookup s.mem fe.kpage).getD 0)) := by
  obtain ⟨s', h1, hcur, htl2, hfl, hpd, hff, hfo, hdd, hqo, hfr, hdr, hdt, hdfa⟩ :=
    frame_do_eviction_ok_conj s srcPid dstPid src f fe dst
      hsrc hsf hfe hfp hdst hdf hdo htl hslots
  refine ⟨s', h1, ?_, hdr, hdt⟩
  rw [hpd]
  exact pagedir_present_clear _ _ _

/-- C5 witness: the theorem applied to the concrete dirty-eviction scenario
`stateEvict`, where the hardware dirty bit is set. -/
theorem C5_witness :
    ∃ s', frame_do_eviction stateEvict 0 1 = Except.ok s' ∧
      pagedir_present s'.pagedir 2 0x08048000 = false ∧
      (alookup s'.pages 0).map PageEnt.dirty =
        some (false || pagedir_is_dirty stateEvict.pagedir 2 0x08048000) ∧
      ((false || pagedir_is_dirty stateEvict.pagedir 2 0x08048000) = true →
        ∃ slot rest, stateEvict.freeSlots = slot :: rest ∧ s'.freeSlots = rest ∧
          (alookup s'.pages 0).map PageEnt.ptype = some PgType.swap ∧
          (alookup s'.pages 0).map PageEnt.slot = some slot ∧
          alookup s'.swapData slot = some ((alookup stateEvict.mem 100).getD 0)) :=
  C5_eviction_dirty_swap stateEvict 0 1
    { upage := 0x08048000, owner := 2, ptype := PgType.file,
      writable := true, dirty := false, slot := 0, frame := some 0 }
    0
    { kpage := 100, owner := 2, page := some 0, lockHolder := some 1, pinned := false }
    { upage := 0x0900000, owner := 1, ptype := PgType.zero,
      writable := true, dirty := false, slot := 0, frame := none }
    rfl rfl rfl rfl rfl rfl rfl rfl (by decide)

/-! ## Clock-scan lemmas -/

theorem mem_of_head? {l : List Nat} {a : Nat} (h : l.head? = some a) : a ∈ l := by
  cases l with
  | nil => exact Option.noConfusion h
  | cons x xs =>
    simp only [List.head?] at h
    injection h with h
    simp [h]

theorem mem_of_list_next_wrap {l : List Nat} {hand : Option Nat} {fid : Nat}
    (h : list_next_wrap l hand = some fid) : fid ∈ l := by
  cases hand with
  | none => exact mem_of_head? h
  | some fid0 =>
    cases hidx : idx_of l fid0 with
    | none =>
      simp only [list_next_wrap, hidx] at h
      exact mem_of_head? h
    | some i =>
      cases hget : l.get? (i + 1) with
      | none =>
        simp only [list_next_wrap, hidx, hget] at h
        exact mem_of_head? h
      | some nxt =>
        simp only [list_next_wrap, hidx, hget] at h
        injection h with h
        subst h
        exact List.get?_mem hget

theorem idx_of_eq_of_get? {l : List Nat} {i : Nat} {fid : Nat}
    (hnd : l.Nodup) (hget : l.get? i = some fid) : idx_of l fid = some i := by
  induction l generalizing i with
  | nil => exact Option.noConfusion hget
  | cons x xs ih =>
    cases i with
    | zero =>
      simp only [List.get?] at hget
      injection hget with hget
      simp [idx_of, hget]
    | succ j =>
      simp only [List.get?] at hget
      have hmem : fid ∈ xs := List.get?_mem hget
      have hx : x ≠ fid := by
        intro he
        subst he
        exact (List.nodup_cons.mp hnd).1 hmem
      simp only [idx_of, if_neg hx]
      rw [ih (List.nodup_cons.mp hnd).2 hget]
      rfl

theorem frame_lock_try_acquire_skel {s : VMState} {fid : Nat} {b : Bool} {s2 : VMState}
    (h : frame_lock_try_acquire s fid = Except.ok (b, s2)) :
    s2.frameList = s.frameList ∧ s2.cur = s.cur ∧ s2.tableLock = s.tableLock ∧
    s2.pages = s.pages ∧ s2.freePages = s.freePages ∧ s2.freeSlots = s.freeSlots ∧
    s2.swapData = s.swapData ∧ s2.mem = s.mem ∧ s2.nextFid = s.nextFid ∧
    s2.mutexLock = s.mutexLock ∧ s2.pagedir = s.pagedir ∧
    (∀ g, (alookup s2.frames g).map FrameEnt.page =
      (alookup s.frames g).map FrameEnt.page) := by
  simp only [frame_lock_try_acquire] at h
  split at h
  · exact Except.noConfusion h
  rename_i fe hfe
  split at h
  · exact Except.noConfusion h
  rename_i pid hpid
  split at h
  · exact Except.noConfusion h
  rename_i pe hpe
  split at h
  · -- owner holds the lock already: state unchanged
    injection h with h
    injection h with h1 h2
    subst h2
    exact ⟨rfl, rfl, rfl, rfl, rfl, rfl, rfl, rfl, rfl, rfl, rfl, fun g => rfl⟩
  · split at h
    · -- lock free: acquired, lockHolder updated
      injection h with h
      injection h with h1 h2
      subst h2
      refine ⟨rfl, rfl, rfl, rfl, rfl, rfl, rfl, rfl, rfl, rfl, rfl, fun g => ?_⟩
      by_cases hg : g = fid
      · subst hg
        simp [alookup_aupdate_eq, hfe]
      · simp [alookup_aupdate_ne _ _ _ _ (fun he => hg he.symm)]
    · -- held by some thread
      split at h
      · exact Except.noConfusion h
      · injection h with h
        injection h with h1 h2
        subst h2
        exact ⟨rfl, rfl, rfl, rfl, rfl, rfl, rfl, rfl, rfl, rfl, rfl, fun g => rfl⟩

theorem frame_lock_try_acquire_true {s : VMState} {fid : Nat} {s2 : VMState}
    (h : frame_lock_try_acquire s fid = Except.ok (true, s2)) :
    ∃ fe pid pe, alookup s.frames fid = some fe ∧ fe.page = some pid ∧
      alookup s.pages pid = some pe ∧ fe.lockHolder = none ∧
      s2 = { s with frames := aupdate s.frames fid (fun g => { g with lockHolder := some s.cur }) } := by
  simp only [frame_lock_try_acquire] at h
  split at h
  · exact Except.noConfusion h
  rename_i fe hfe
  split at h
  · exact Except.noConfusion h
  rename_i pid hpid
  split at h
  · exact Except.noConfusion h
  rename_i pe hpe
  split at h
  · injection h with h
    injection h with h1 h2
    exact Bool.noConfusion h1
  · split at h
    · -- lock free: acquired
      rename_i hlk
      injection h with h
      injection h with h1 h2
      exact ⟨fe, pid, pe, hfe, hpid, hpe, hlk, h2.symm⟩
    · -- held: cannot have returned true
      split at h
      · exact Except.noConfusion h
      · injection h with h
        injection h with h1 h2
        exact Bool.noConfusion h1

theorem page_was_accessed_ok {s : VMState} {pid : Nat} {a : Bool} {s3 : VMState}
    (h : page_was_accessed s pid = Except.ok (a, s3)) :
    ∃ pe, alookup s.pages pid = some pe ∧
      a = pagedir_accessed s.pagedir pe.owner pe.upage ∧
      s3 = { s with pagedir := aupdate s.pagedir (pe.owner, pe.upage) (fun pte => { pte with accessed := false }) } := by
  simp only [page_was_accessed] at h
  split at h
  · exact Except.noConfusion h
  case _ pe hpe =>
    injection h with h
    injection h with h1 h2
    exact ⟨pe, hpe, h1.symm, h2.symm⟩

theorem frame_lock_release_ok {s : VMState} {fid : Nat} {s4 : VMState}
    (h : frame_lock_release s fid = Except.ok s4) :
    ∃ fe, alookup s.frames fid = some fe ∧ fe.lockHolder = some s.cur ∧
      s4 = { s with frames := aupdate s.frames fid (fun g => { g with lockHolder := none }) } := by
  simp only [frame_lock_release, lock_release] at h
  split at h
  · exact Except.noConfusion h
  rename_i fe hfe
  split at h
  · exact Except.noConfusion h
  rename_i m' hh
  injection h with h
  split at hh
  · rename_i hlk
    injection hh with hh
    subst hh
    exact ⟨fe, hfe, hlk, h.symm⟩
  · exact Except.noConfusion hh

theorem alookup_aupdate_lockHolder_page (fr : List (Nat × FrameEnt)) (fid : Nat)
    (h : Option Tid) (g : Nat) :
    (alookup (aupdate fr fid (fun x => { x with lockHolder := h })) g).map FrameEnt.page =
      (alookup fr g).map FrameEnt.page := by
  by_cases hg : g = fid
  · subst hg
    rw [alookup_aupdate_eq]
    cases alookup fr g <;> rfl
  · rw [alookup_aupdate_ne _ _ _ _ (fun he => hg he.symm)]

/-- What a successful clock scan guarantees: the victim was on the frame
list, it has been removed from the list exactly once, all bookkeeping other
than frames, hand and page directory is untouched, the `page` structure of
every frame survives, and the victim is returned with its per-frame lock
held by the caller while its page's hardware accessed bit is clear. -/
theorem frame_get_victim_loop_ok {fuel : Nat} {s : VMState} {fid : Nat} {s' : VMState}
    (h : frame_get_victim_loop fuel s = Except.ok (fid, s')) :
    fid ∈ s.frameList ∧
    s'.frameList = s.frameList.erase fid ∧
    s'.cur = s.cur ∧ s'.tableLock = s.tableLock ∧ s'.pages = s.pages ∧
    s'.freePages = s.freePages ∧ s'.freeSlots = s.freeSlots ∧
    s'.swapData = s.swapData ∧ s'.mem = s.mem ∧ s'.nextFid = s.nextFid ∧
    s'.mutexLock = s.mutexLock ∧
    (∀ g, (alookup s'.frames g).map FrameEnt.page =
      (alookup s.frames g).map FrameEnt.page) ∧
    (∃ fe, alookup s'.frames fid = some fe ∧ fe.lockHolder = some s.cur ∧
      ∃ pid pe, fe.page = some pid ∧ alookup s'.pages pid = some pe ∧
        pagedir_accessed s'.pagedir pe.owner pe.upage = false) := by
  induction fuel generalizing s with
  | zero => exact Except.noConfusion h
  | succ n ih =>
    simp only [frame_get_victim_loop, frame_advance_hand] at h
    split at h
    · exact Except.noConfusion h
    rename_i fid0 s1 hadv
    split at hadv
    · exact Except.noConfusion hadv
    rename_i fid2 hnext
    injection hadv with hadv
    injection hadv with hfid hs1
    subst hfid
    subst hs1
    split at h
    · exact Except.noConfusion h
    rename_i fe hfe
    split at h
    · exact Except.noConfusion h
    rename_i pid hpage
    split at h
    · exact Except.noConfusion h
    case _ s2 heq =>
      -- lock not obtained: skip this frame and recurse
      obtain ⟨hmem, hfl, hcur, htl, hpg, hfp2, hfs2, hsw, hmm2, hnf, hmx, hframes, hfin⟩ :=
        ih h
      obtain ⟨k1, k2, k3, k4, k5, k6, k7, k8, k9, k10, k11, k12⟩ :=
        frame_lock_try_acquire_skel heq
      refine ⟨by rw [k1] at hmem; exact hmem, by rw [hfl, k1], hcur.trans k2,
        htl.trans k3, hpg.trans k4, hfp2.trans k5, hfs2.trans k6, hsw.trans k7,
        hmm2.trans k8, hnf.trans k9, hmx.trans k10,
        fun g => (hframes g).trans (k12 g), ?_⟩
      obtain ⟨fe', hfe', hlk', rest⟩ := hfin
      rw [k2] at hlk'
      exact ⟨fe', hfe', hlk', rest⟩
    case _ s2 heq =>
      -- lock obtained: test the accessed bit
      split at h
      · exact Except.noConfusion h
      case _ s3 heq2 =>
        -- accessed: clear it, release the lock, recurse
        split at h
        · exact Except.noConfusion h
        case _ s4 heq3 =>
          obtain ⟨hmem, hfl, hcur, htl, hpg, hfp2, hfs2, hsw, hmm2, hnf, hmx, hframes, hfin⟩ :=
            ih h
          obtain ⟨k1, k2, k3, k4, k5, k6, k7, k8, k9, k10, k11, k12⟩ :=
            frame_lock_try_acquire_skel heq
          obtain ⟨pe2, hpe2, ha2, hs3⟩ := page_was_accessed_ok heq2
          obtain ⟨fe3, hfe3, hlk3, hs4⟩ := frame_lock_release_ok heq3
          subst hs3
          subst hs4
          refine ⟨?_, ?_, ?_, ?_, ?_, ?_, ?_, ?_, ?_, ?_, ?_, ?_, ?_⟩
          · rw [k1] at hmem; exact hmem
          · rw [hfl, k1]
          · exact hcur.trans k2
          · exact htl.trans k3
          · exact hpg.trans k4
          · exact hfp2.trans k5
          · exact hfs2.trans k6
          · exact hsw.trans k7
          · exact hmm2.trans k8
          · exact hnf.trans k9
          · exact hmx.trans k10
          · intro g
            refine ((hframes g).trans ?_).trans (k12 g)
            exact alookup_aupdate_lockHolder_page _ _ _ _
          · obtain ⟨fe', hfe', hlk', rest⟩ := hfin
            rw [k2] at hlk'
            exact ⟨fe', hfe', hlk', rest⟩
      case _ s3 heq2 =>
        -- accessed bit clear: victim found
        injection h with h
        injection h with h1 h2
        subst h1
        obtain ⟨fe1, pid1, pe1, hfe1, hpage1, hpe1, hlk1, hs2⟩ :=
          frame_lock_try_acquire_true heq
        obtain ⟨pe2, hpe2, ha2, hs3⟩ := page_was_accessed_ok heq2
        subst hs2
        subst hs3
        subst h2
        rw [hfe] at hfe1
        injection hfe1 with hfe1
        refine ⟨mem_of_list_next_wrap hnext, rfl, rfl, rfl, rfl, rfl, rfl, rfl, rfl,
          rfl, rfl, ?_, ?_⟩
        · intro g
          exact alookup_aupdate_lockHolder_page _ _ _ _
        · refine ⟨{ fe with lockHolder := some s.cur }, ?_, rfl, pid, pe2, hpage, hpe2, ?_⟩
          · simp only [alookup_aupdate_eq, hfe]
            rfl
          · exact pagedir_accessed_clear _ _ _

/-- `frame_get_victim` succeeds only through the scan loop, after its
assertions hold. -/
theorem frame_get_victim_ok {fuel : Nat} {s : VMState} {fid : Nat} {s' : VMState}
    (h : frame_get_victim fuel s = Except.ok (fid, s')) :
    s.tableLock = some s.cur ∧
    frame_get_victim_loop fuel s = Except.ok (fid, s') := by
  simp only [frame_get_victim] at h
  split at h
  · split at h
    · exact Except.noConfusion h
    · rename_i htl _
      exact ⟨htl, h⟩
  · exact Except.noConfusion h

/-- Any successful `frame_do_eviction` removes one frame from the list (a
no-op when it is already absent, as on the allocation path) and re-appends
that frame at the tail. -/
theorem frame_do_eviction_frameList {s : VMState} {srcPid dstPid : Nat} {s' : VMState}
    (h : frame_do_eviction s srcPid dstPid = Except.ok s') :
    ∃ g, s'.frameList = s.frameList.erase g ++ [g] := by
  simp only [frame_do_eviction] at h
  split at h
  · exact Except.noConfusion h
  rename_i src hsrc
  split at h
  · exact Except.noConfusion h
  rename_i f hsf
  split at h
  · exact Except.noConfusion h
  rename_i fe hfe
  split at h
  · split at h
    · exact Except.noConfusion h
    rename_i dst hdst
    split at h
    · split at h
      · -- dirty path: swap_out succeeds
        split at h
        · exact Except.noConfusion h
        rename_i slot sC heq
        simp only [swap_out] at heq
        split at heq
        · exact Except.noConfusion heq
        rename_i a rest' hfs
        injection heq with heq
        injection heq with heq1 heq2
        subst heq2
        injection h with h
        subst h
        exact ⟨f, rfl⟩
      · -- clean path
        injection h with h
        subst h
        exact ⟨f, rfl⟩
    · exact Except.noConfusion h
  · exact Except.noConfusion h

/-- Inversion of a successful `frame_alloc`: either the fresh-frame path was
taken (explicit resulting state) or the pool was empty and the
victim-selection and eviction steps all succeeded. -/
theorem frame_alloc_ok {fuel : Nat} {s : VMState} {pid : Nat} {f : Nat} {s' : VMState}
    (h : frame_alloc fuel s pid = Except.ok (f, s')) :
    ∃ p, alookup s.pages pid = some p ∧ p.owner = s.cur ∧ s.tableLock = none ∧
      ((∃ kpage rest, s.freePages = kpage :: rest ∧ f = s.nextFid ∧
          s' = { s with tableLock := none, nextFid := s.nextFid + 1, freePages := rest, frames := (s.nextFid, { kpage := kpage, owner := p.owner, page := some pid, lockHolder := some s.cur, pinned := false }) :: s.frames, frameList := s.frameList ++ [s.nextFid] }) ∨
       (s.freePages = [] ∧ ∃ sV vfe vpid vp sE,
          frame_get_victim fuel { s with tableLock := some s.cur } = Except.ok (f, sV) ∧
          alookup sV.frames f = some vfe ∧ vfe.page = some vpid ∧
          alookup sV.pages vpid = some vp ∧ vfe.owner = vp.owner ∧
          frame_do_eviction sV vpid pid = Except.ok sE ∧
          sE.tableLock = some sE.cur ∧
          s' = { sE with tableLock := none })) := by
  simp only [frame_alloc, lock_acquire] at h
  split at h
  · exact Except.noConfusion h
  rename_i p hp
  split at h
  case isFalse => exact Except.noConfusion h
  rename_i hpo
  split at h
  · exact Except.noConfusion h
  rename_i tl hlk
  split at hlk
  · -- table lock was free
    rename_i htb
    injection hlk with hlk
    subst hlk
    refine ⟨p, hp, hpo, htb, ?_⟩
    split at h
    · -- fresh-frame path
      rename_i kpage rest hfp
      injection h with h
      injection h with h1 h2
      exact Or.inl ⟨kpage, rest, hfp, h1.symm, h2.symm⟩
    · -- eviction path
      rename_i hfp
      split at h
      · exact Except.noConfusion h
      rename_i v sV hgv
      split at h
      · exact Except.noConfusion h
      rename_i vfe hvfe
      split at h
      · exact Except.noConfusion h
      rename_i vpid hvp
      split at h
      · exact Except.noConfusion h
      rename_i vp hvpp
      split at h
      case isFalse => exact Except.noConfusion h
      rename_i how
      split at h
      · exact Except.noConfusion h
      rename_i sE hde
      split at h
      · exact Except.noConfusion h
      rename_i tl' hrel
      simp only [lock_release] at hrel
      split at hrel
      · rename_i htle
        injection hrel with hrel
        subst hrel
        injection h with h
        injection h with h1 h2
        subst h1
        exact Or.inr ⟨hfp, sV, vfe, vpid, vp, sE, hgv, hvfe, hvp, hvpp, how, hde,
          htle, h2.symm⟩
      · exact Except.noConfusion hrel
  · -- table lock held: lock_acquire cannot return ok
    split at hlk
    · exact Except.noConfusion hlk
    · exact Except.noConfusion hlk

theorem nodup_append_singleton {l : List Nat} {a : Nat} (hl : l.Nodup) (ha : a ∉ l) :
    (l ++ [a]).Nodup := by
  rw [List.nodup_append]
  refine ⟨hl, List.nodup_singleton a, ?_⟩
  intro b hb hb2
  rw [List.mem_singleton] at hb2
  subst hb2
  exact ha hb

/-! ## C6: the clock (second-chance) sweep -/

/-- C6: victim selection follows the clock algorithm.  First conjunct: the
hand advances one step at a time, wrapping from the end of the list back to
the beginning.  Second conjunct: whenever `frame_get_victim` returns a
victim, the victim came from the frame list, it has been removed from the
list, it is returned with its per-frame lock held by the caller, and the
hardware accessed bit of its page is clear (a frame whose lock cannot be
taken is skipped, and a frame whose accessed bit was set had the bit
cleared and its lock released — the returned state reflects those
side effects). -/
theorem C6_clock_victim_selection :
    (∀ (l : List Nat) (i : Nat) (fid : Nat), l.Nodup → l.get? i = some fid →
      (i + 1 < l.length → list_next_wrap l (some fid) = l.get? (i + 1)) ∧
      (i + 1 = l.length → list_next_wrap l (some fid) = l.head?)) ∧
    (∀ (fuel : Nat) (s : VMState) (fid : Nat) (s' : VMState),
      frame_get_victim fuel s = Except.ok (fid, s') →
      fid ∈ s.frameList ∧
      s'.frameList = s.frameList.erase fid ∧
      (∃ fe, alookup s'.frames fid = some fe ∧ fe.lockHolder = some s.cur ∧
        ∃ pid pe, fe.page = some pid ∧ alookup s'.pages pid = some pe ∧
          pagedir_accessed s'.pagedir pe.owner pe.upage = false)) := by
  constructor
  · intro l i fid hnd hget
    have hidx := idx_of_eq_of_get? hnd hget
    constructor
    · intro hlen
      rw [List.get?_eq_get hlen]
      simp only [list_next_wrap, hidx, List.get?_eq_get hlen]
    · intro hlen
      have hnone : l.get? (i + 1) = none := List.get?_eq_none.mpr (le_of_eq hlen.symm)
      simp only [list_next_wrap, hidx, hnone]
  · intro fuel s fid s' h
    obtain ⟨htl, hloop⟩ := frame_get_victim_ok h
    obtain ⟨hmem, hfl, _, _, _, _, _, _, _, _, _, _, hfin⟩ :=
      frame_get_victim_loop_ok hloop
    exact ⟨hmem, hfl, hfin⟩

/-- C6 witness: the theorem applied to the concrete state `stateC3`, whose
single (lock-free, not-accessed) frame is selected. -/
theorem C6_witness :
    0 ∈ stateC3.frameList ∧
    stateC3Post.frameList = stateC3.frameList.erase 0 ∧
    (∃ fe, alookup stateC3Post.frames 0 = some fe ∧ fe.lockHolder = some stateC3.cur ∧
      ∃ pid pe, fe.page = some pid ∧ alookup stateC3Post.pages pid = some pe ∧
        pagedir_accessed stateC3Post.pagedir pe.owner pe.upage = false) :=
  C6_clock_victim_selection.2 4 stateC3 0 stateC3Post rfl

/-! ## C7: what frame_alloc returns -/

/-- C7 counterexample: on the fresh-frame path `frame_alloc` returns a frame
`f` with `f.page = p`, but it does not set `p.frame` — after the call the
SPT entry's frame reference is still absent, contrary to the claim's
`p.frame = f`. -/
theorem C7_counterexample :
    frame_alloc 4 stateFresh 1 = Except.ok (5, stateFreshPost) ∧
    (alookup stateFreshPost.frames 5).map FrameEnt.page = some (some 1) ∧
    (alookup stateFreshPost.pages 1).map PageEnt.frame = some none := by
  refine ⟨rfl, rfl, rfl⟩

/-- C7 (amended): for every not-yet-resident SPT entry `p` owned by the
current process (in a state satisfying the resident-page bijection and with
a free swap slot), `frame_alloc(p)` returns a frame `f` whose per-frame lock
is held by the caller, with `f.page = p`; `p.frame` is not written — it
remains absent, to be set by the caller.  On the fresh-frame path the new
descriptor is appended at the tail of the frame list with its owner set to
`p`'s owner; on the exhausted-pool path the victim frame is returned still
locked. -/
theorem C7_frame_alloc_locked (fuel : Nat) (s : VMState) (pid f : Nat) (s' : VMState)
    (hcons : frames_pages_consistent s = true)
    (hnr : (alookup s.pages pid).map PageEnt.frame = some none)
    (hswap : s.freeSlots ≠ [])
    (h : frame_alloc fuel s pid = Except.ok (f, s')) :
    (∃ fe, alookup s'.frames f = some fe ∧ fe.page = some pid ∧
      fe.lockHolder = some s.cur) ∧
    (alookup s'.pages pid).map PageEnt.frame = some none ∧
    (s.freePages ≠ [] → s'.frameList = s.frameList ++ [f] ∧
      (alookup s'.frames f).map FrameEnt.owner =
        (alookup s.pages pid).map PageEnt.owner) := by
  obtain ⟨p, hp, hpo, htb, hpath⟩ := frame_alloc_ok h
  have hpf : p.frame = none := by
    rw [hp] at hnr
    exact Option.some.inj hnr
  cases hpath with
  | inl hfr =>
    obtain ⟨kpage, rest, hfp, hf, hs'⟩ := hfr
    subst hs'
    subst hf
    refine ⟨⟨{ kpage := kpage, owner := p.owner, page := some pid, lockHolder := some s.cur, pinned := false }, ?_, rfl, rfl⟩, ?_, ?_⟩
    · simp [alookup]
    · exact hnr
    · intro _
      refine ⟨rfl, ?_⟩
      rw [hp]
      simp [alookup]
  | inr hev =>
    obtain ⟨hfp0, sV, vfe, vpid, vp, sE, hgv, hvfe, hvp, hvpp, how, hde, htle, hs'⟩ := hev
    subst hs'
    obtain ⟨htlV, hloop⟩ := frame_get_victim_ok hgv
    obtain ⟨hmem, hflV, hcurV, htlV2, hpgV, _, hfsV, _, _, _, _, hframesV, hfin⟩ :=
      frame_get_victim_loop_ok hloop
    have hcurV' : sV.cur = s.cur := hcurV
    have htlV2' : sV.tableLock = some s.cur := htlV2
    have hpgV' : sV.pages = s.pages := hpgV
    have hfsV' : sV.freeSlots = s.freeSlots := hfsV
    have hframesV' : ∀ g, (alookup sV.frames g).map FrameEnt.page =
        (alookup s.frames g).map FrameEnt.page := hframesV
    obtain ⟨fe_l, hfe_l, hlk_l, _⟩ := hfin
    have hlk_l' : fe_l.lockHolder = some s.cur := hlk_l
    rw [hvfe] at hfe_l
    have hveq : vfe = fe_l := Option.some.inj hfe_l
    -- derive vp.frame = some f from the resident-page bijection
    have hpage_pres := hframesV' f
    rw [hvfe] at hpage_pres
    have hvpf : vp.frame = some f := by
      cases hfe0 : alookup s.frames f with
      | none =>
        rw [hfe0] at hpage_pres
        exact Option.noConfusion hpage_pres
      | some fe0 =>
        rw [hfe0] at hpage_pres
        have hfe0p : fe0.page = some vpid := by
          have := Option.some.inj hpage_pres
          rw [← this, hvp]
        have hmem0 := alookup_mem hfe0
        have hall := List.all_eq_true.mp hcons ⟨f, fe0⟩ hmem0
        rw [hfe0p] at hall
        have hqf : (alookup s.pages vpid).map PageEnt.frame = some (some f) :=
          of_decide_eq_true hall
        have hvpp' : alookup s.pages vpid = some vp := by rw [← hpgV']; exact hvpp
        rw [hvpp'] at hqf
        exact Option.some.inj hqf
    -- run the eviction characterization on sV
    have hpV : alookup sV.pages pid = some p := by rw [hpgV']; exact hp
    obtain ⟨s'', hde'', hcur2, htl2, hfl2, hpd2, hff2, hfo2, hdd2, hqo2, hfr2, hdr2,
        hdt2, hdfa2⟩ :=
      frame_do_eviction_ok_conj sV vpid pid vp f vfe p hvpp hvpf hvfe hvp hpV hpf
        (by rw [hpo, hcurV']) (by rw [htlV2', hcurV']) (by rw [hfsV']; exact hswap)
    rw [hde] at hde''
    have hsE : sE = s'' := Except.ok.inj hde''
    subst hsE
    refine ⟨⟨{ vfe with page := some pid, owner := p.owner }, hff2, rfl, ?_⟩, ?_, ?_⟩
    · show vfe.lockHolder = some s.cur
      rw [hveq]
      exact hlk_l'
    · show (alookup sE.pages pid).map PageEnt.frame = some none
      rw [hdd2]
      simp [hpf]
    · intro hne
      exact absurd hfp0 hne

/-- C7 witness: the amended theorem applied to the exhausted-pool scenario
`stateAlloc`, where frame 0 is evicted in favour of SPT entry 1. -/
theorem C7_witness :
    (∃ fe, alookup stateAllocPost.frames 0 = some fe ∧ fe.page = some 1 ∧
      fe.lockHolder = some stateAlloc.cur) ∧
    (alookup stateAllocPost.pages 1).map PageEnt.frame = some none ∧
    (stateAlloc.freePages ≠ [] →
      stateAllocPost.frameList = stateAlloc.frameList ++ [0] ∧
      (alookup stateAllocPost.frames 0).map FrameEnt.owner =
        (alookup stateAlloc.pages 1).map PageEnt.owner) :=
  C7_frame_alloc_locked 4 stateAlloc 1 0 stateAllocPost (by decide) (by decide)
    (by decide) rfl

/-! ## C8: no frame appears twice in the frame list -/

/-- C8: `frame_alloc` preserves the no-duplicates invariant of the frame
list on both paths.  In particular, on the eviction path the victim is
removed by `frame_get_victim` and removed again by `frame_do_eviction` —
the second removal is a no-op — before being re-appended exactly once, so a
list without duplicates stays without duplicates. -/
theorem C8_frame_list_nodup_preserved (fuel : Nat) (s : VMState) (pid f : Nat)
    (s' : VMState) (hnd : s.frameList.Nodup) (hfresh : s.nextFid ∉ s.frameList)
    (h : frame_alloc fuel s pid = Except.ok (f, s')) :
    s'.frameList.Nodup := by
  obtain ⟨p, hp, hpo, htb, hpath⟩ := frame_alloc_ok h
  cases hpath with
  | inl hfr =>
    obtain ⟨kpage, rest, hfp, hf, hs'⟩ := hfr
    subst hs'
    exact nodup_append_singleton hnd hfresh
  | inr hev =>
    obtain ⟨hfp0, sV, vfe, vpid, vp, sE, hgv, hvfe, hvp, hvpp, how, hde, htle, hs'⟩ := hev
    subst hs'
    obtain ⟨htlV, hloop⟩ := frame_get_victim_ok hgv
    obtain ⟨hmem, hflV, _⟩ := frame_get_victim_loop_ok hloop
    have hflV' : sV.frameList = s.frameList.erase f := hflV
    obtain ⟨g, hg⟩ := frame_do_eviction_frameList hde
    show sE.frameList.Nodup
    rw [hg, hflV']
    have h1 : (s.frameList.erase f).Nodup := hnd.erase f
    have h2 : ((s.frameList.erase f).erase g).Nodup := h1.erase g
    have h3 : g ∉ (s.frameList.erase f).erase g := h1.not_mem_erase
    exact nodup_append_singleton h2 h3

/-- C8 witness: the theorem applied to the eviction-path scenario
`stateAlloc`. -/
theorem C8_witness :
    stateAlloc.frameList.Nodup ∧ stateAllocPost.frameList.Nodup :=
  ⟨by decide,
   C8_frame_list_nodup_preserved 4 stateAlloc 1 0 stateAllocPost (by decide)
     (by decide) rfl⟩

/-! ## C3: victim selection ignores the pinned flag -/

/-- C3: evaluation of the embedded `frame_get_victim` at a state whose only
frame is pinned (lock free, accessed bit clear).  The pinned frame is
selected as the victim — `frame_get_victim` never consults `pinned` — though
the specification requires that a pinned frame never be chosen. -/
theorem C3_pinned_frame_selected :
    frame_get_victim 4 stateC3 = Except.ok (0, stateC3Post) ∧
    (alookup stateC3.frames 0).map FrameEnt.pinned = some true := by
  constructor
  · rfl
  · rfl

/-! ## C9: the second frame_try_pin never returns -/

/-- C9: evaluation of two consecutive `frame_try_pin` calls on the same
initially-unpinned frame.  The first call succeeds and pins the frame, but —
because the `else` arm of the success test captures the
`lock_release (&mutex_lock)` statement — it returns with `mutex_lock` still
held, so the second call (the claim's already-pinned case) fails the
`lock_acquire` assertion instead of returning `false`. -/
theorem C9_second_try_pin_asserts :
    frame_try_pin stateAlloc (some 0) = Except.ok (true, statePinned) ∧
    (alookup statePinned.frames 0).map FrameEnt.pinned = some true ∧
    statePinned.mutexLock = some statePinned.cur ∧
    frame_try_pin statePinned (some 0) = Except.error Err.assertFail := by
  refine ⟨rfl, rfl, rfl, rfl⟩

/-! ## C10: frame_try_pin is total on a null argument -/

/-- C10: called with a null frame pointer, `frame_try_pin` returns `false`
without dereferencing the pointer, asserting or modifying any state (the
mutex is taken and released, leaving the state exactly as it was), while
`frame_unpin` asserts that its argument is non-null and fails on a null
pointer. -/
theorem C10_try_pin_null_total (s : VMState) (h : s.mutexLock = none) :
    frame_try_pin s none = Except.ok (false, s) ∧
    frame_unpin s none = Except.error Err.assertFail := by
  constructor
  · cases s
    subst h
    simp [frame_try_pin, lock_acquire, lock_release]
  · rfl

/-- C10 witness: the theorem applied to a concrete state with a free
mutex. -/
theorem C10_witness :
    frame_try_pin stateAlloc none = Except.ok (false, stateAlloc) ∧
    frame_unpin stateAlloc none = Except.error Err.assertFail :=
  C10_try_pin_null_total stateAlloc rfl

end PintosVM
